import Mathlib

/-!
Verification of the TCP connection engine of the `tcpst2` repository
(`src/tcp.rs`), against its natural-language specification.

The engine works over smoltcp's `TcpSeqNumber`, an `i32` with wrapping
arithmetic whose ordering is given by the sign of the wrapping (two's
complement) difference.  We embed sequence numbers as natural numbers
taken modulo `2^32`; a value `v : Nat` denotes the 32-bit sequence number
`v % 2^32`, and the i32 sign test "negative" becomes "the unsigned
residue is at least `2^31`".
-/

namespace Tcpst2

/-- Modulus of the 32-bit sequence-number space. -/
def M32 : Nat := 4294967296

/-- Half of the sequence-number space; residues at or above this value
correspond to negative `i32` differences. -/
def HALF : Nat := 2147483648

/-- Unsigned residue of the wrapping difference `a - b` of two sequence
numbers (the bit pattern of `i32::wrapping_sub`). -/
def seqDiff (a b : Nat) : Nat := (a + (M32 - b % M32)) % M32

/-- Equality of sequence numbers (`PartialEq` on the underlying `i32`). -/
def seqEq (a b : Nat) : Bool := a % M32 == b % M32

/-- Strict order on sequence numbers: `a < b` iff the wrapping difference
`a - b` is negative as an `i32`. -/
def seqLt (a b : Nat) : Bool := decide (HALF ≤ seqDiff a b)

/-- Non-strict order: the wrapping difference is zero or negative. -/
def seqLe (a b : Nat) : Bool := seqEq a b || seqLt a b

/-- Strict reverse order, the negation of `seqLe`. -/
def seqGt (a b : Nat) : Bool := !seqLe a b

/-- Addition of a length to a sequence number (smoltcp's `Add<usize>
for TcpSeqNumber`), which wraps as an `i32` but panics for increments
above `i32::MAX`.  The embedding wraps unconditionally; every increment
the engine performs on a wire-parsed segment is far below that bound,
and the theorems about locally chosen payload lengths carry an explicit
`< 2^31` bound on each increment so that they stay inside the
non-panicking range where this model is faithful. -/
def seqAdd (a n : Nat) : Nat := (a + n) % M32

/-- Subtraction of sequence numbers (smoltcp's `Sub for TcpSeqNumber`),
which returns a `usize` and panics when the wrapping difference is
negative; the panic is modelled by `none`. -/
def seqSub (a b : Nat) : Option Nat :=
  let d := seqDiff a b
  if d < HALF then some d else none

/-- TCP control flag of a segment, as in smoltcp's `TcpControl`. -/
inductive TcpControl
  | None
  | Psh
  | Syn
  | Fin
  | Rst
deriving DecidableEq

/-- Sequence-space length of a control flag (`TcpControl::len`):
SYN and FIN occupy one sequence octet. -/
def TcpControl.len : TcpControl → Nat
  | .Syn => 1
  | .Fin => 1
  | _ => 0

/-- Abstract content of a parsed or emitted TCP segment, the fields of
smoltcp's `TcpRepr` that the engine reads or writes.  Payload bytes are
modelled as a list of naturals. -/
structure TcpRepr where
  src_port : Nat
  dst_port : Nat
  control : TcpControl
  seq_number : Nat
  ack_number : Option Nat
  window_len : Nat
  payload : List Nat
deriving DecidableEq

/-- Sequence-space length of a segment (`TcpRepr::segment_len`). -/
def TcpRepr.segment_len (s : TcpRepr) : Nat := s.payload.length + s.control.len

/-- Transmission control block (struct `Tcb` in `tcp.rs`). -/
structure Tcb where
  snd_una : Nat
  snd_nxt : Nat
  snd_wnd : Nat
  snd_wl1 : Nat
  snd_wl2 : Nat
  rcv_nxt : Nat
  rcv_wnd : Nat
deriving DecidableEq

/-- Connection state tag; the Rust code carries it as a phantom type
parameter on `Tcp<State>`. -/
inductive TcpState
  | SynRcvd
  | Established
  | FinWait1
  | FinWait2
  | CloseWait
  | LastAck
deriving DecidableEq

/-- Local endpoint data used by the engine (port of `LocalAddr`). -/
structure LocalAddr where
  port : Nat
deriving DecidableEq

/-- Connection object (struct `Tcp<State>` in `tcp.rs`): state tag, the
two ports, the TCB and the retransmission queue (front of the `VecDeque`
is the head of the list). -/
structure Conn where
  state : TcpState
  local_port : Nat
  remote_port : Nat
  tcb : Tcb
  retransmission : List TcpRepr
deriving DecidableEq

/-- Reaction of `accept` to one segment (enum `ReactionInner`). -/
inductive ReactionInner
  | Acceptable : Option TcpRepr → Option (List Nat) → ReactionInner
  | NotAcceptable : Option TcpRepr → ReactionInner
  | Reset : Option TcpRepr → ReactionInner
deriving DecidableEq

/-- Reaction paired with the surviving connection object (enum
`Reaction`); on `Acceptable` the connection has transitioned to the
target state of the calling wrapper. -/
inductive Reaction
  | Acceptable : Conn → Option TcpRepr → Option (List Nat) → Reaction
  | NotAcceptable : Conn → Option TcpRepr → Reaction
  | Reset : Option TcpRepr → Reaction
deriving DecidableEq

/-- Builder for outgoing ACK-bearing segments (`Tcp::build_ack_raw`):
seq is `snd_nxt`, ack is `rcv_nxt`, window is `rcv_wnd`; afterwards
`snd_nxt` advances by the segment's sequence-space length. -/
def build_ack_raw (c : Conn) (payload : List Nat) (fin : Bool) : Conn × TcpRepr :=
  let control := if fin then TcpControl.Fin else TcpControl.None
  let repr : TcpRepr := {
    src_port := c.local_port
    dst_port := c.remote_port
    control := control
    seq_number := c.tcb.snd_nxt
    ack_number := some c.tcb.rcv_nxt
    window_len := c.tcb.rcv_wnd
    payload := payload }
  ({ c with tcb := { c.tcb with snd_nxt := seqAdd c.tcb.snd_nxt repr.segment_len } }, repr)

/-- Plain ACK builder (`Tcp::build_ack`). -/
def build_ack (c : Conn) (payload : List Nat) : Conn × TcpRepr :=
  build_ack_raw c payload false

/-- FIN|ACK builder (`Tcp::build_fin`). -/
def build_fin (c : Conn) : Conn × TcpRepr :=
  build_ack_raw c [] true

/-- RST builder (`Tcp::build_reset`); does not touch the TCB. -/
def build_reset (c : Conn) (seq : Nat) : TcpRepr :=
  { src_port := c.local_port
    dst_port := c.remote_port
    control := TcpControl.Rst
    seq_number := seq
    ack_number := none
    window_len := c.tcb.rcv_wnd
    payload := [] }

/-- Acceptance test of RFC 9293 section 3.10.7.4 as the code implements
it (`Tcp::is_seg_acceptable`). -/
def is_seg_acceptable (tcb : Tcb) (seg : TcpRepr) : Bool :=
  let seg_seq := seg.seq_number
  let seg_len := seg.segment_len
  let rcv_nxt := tcb.rcv_nxt
  let rcv_wnd := tcb.rcv_wnd
  if seg_len == 0 then
    if rcv_wnd == 0 then
      seqEq seg_seq rcv_nxt
    else
      seqLe rcv_nxt seg_seq && seqLt seg_seq (seqAdd rcv_nxt rcv_wnd)
  else
    if rcv_wnd == 0 then
      false
    else
      (seqLe rcv_nxt seg_seq && seqLt seg_seq (seqAdd rcv_nxt rcv_wnd))
        || (seqLe rcv_nxt (seqAdd seg_seq (seg_len - 1))
            && seqLt (seqAdd seg_seq (seg_len - 1)) (seqAdd rcv_nxt rcv_wnd))

/-- End of a segment in sequence space, `seq_number + segment_len` as
computed by the pop loop of `Tcp::accept`. -/
def endSeq (e : TcpRepr) : Nat := seqAdd e.seq_number e.segment_len

/-- Pop loop of `Tcp::accept`: pop acknowledged segments from the front
of the retransmission queue while `seq + len <= ack`. -/
def popAcked (q : List TcpRepr) (ack : Nat) : List TcpRepr :=
  match q with
  | [] => []
  | rt :: rest =>
    if seqLe (endSeq rt) ack then popAcked rest ack
    else rt :: rest

/-- Tail of ACK processing in `Tcp::accept` (from the window-update
check with `SND.UNA =< SEG.ACK =< SND.NXT` to the `Acceptable` return):
possibly update the send window coordinates, advance `rcv_nxt` past the
segment, and answer with an ACK iff the segment consumed sequence
space.  `wl_update` is the window-update block guarded by
`SND.UNA =< SEG.ACK =< SND.NXT`. -/
def wl_update (c : Conn) (seg : TcpRepr) (ack_number : Nat) : Conn :=
  if seqLe c.tcb.snd_una ack_number && seqLe ack_number c.tcb.snd_nxt then
    if seqLt c.tcb.snd_wl1 seg.seq_number
        || (seqEq c.tcb.snd_wl1 seg.seq_number && seqLe c.tcb.snd_wl2 ack_number) then
      { c with tcb := { c.tcb with
          snd_wnd := seg.window_len
          snd_wl1 := seg.seq_number
          snd_wl2 := ack_number } }
    else c
  else c

def accept_finish (c : Conn) (seg : TcpRepr) (ack_number : Nat) (payload : List Nat) :
    Conn × ReactionInner :=
  let c1 := wl_update c seg ack_number
  let c2 := { c1 with tcb := { c1.tcb with rcv_nxt := seqAdd seg.seq_number seg.segment_len } }
  if 0 < seg.segment_len then
    let (c3, a) := build_ack c2 []
    (c3, .Acceptable (some a) (if 0 < payload.length then some payload else none))
  else
    (c2, .Acceptable none (if 0 < payload.length then some payload else none))

/-- Middle of ACK processing in `Tcp::accept`: on `snd_una < ack <=
snd_nxt` advance `snd_una` and pop the acknowledged retransmissions, on
`ack > snd_nxt` answer with a challenge ACK, otherwise (duplicate ACK)
fall through unchanged. -/
def accept_ack (c : Conn) (seg : TcpRepr) (ack_number : Nat) (payload : List Nat) :
    Conn × ReactionInner :=
  if seqLt c.tcb.snd_una ack_number && seqLe ack_number c.tcb.snd_nxt then
    let c1 := { c with
      tcb := { c.tcb with snd_una := ack_number }
      retransmission := popAcked c.retransmission ack_number }
    accept_finish c1 seg ack_number payload
  else if seqGt ack_number c.tcb.snd_nxt then
    let (c1, a) := build_ack c []
    (c1, .NotAcceptable (some a))
  else
    accept_finish c seg ack_number payload

/-- SYN-RECEIVED special case of ACK processing in `Tcp::accept`: a
first acceptable ACK records the window coordinates, anything else is
answered with a RST at the acknowledgement number. -/
def accept_with_ack (c : Conn) (seg : TcpRepr) (ack_number : Nat) (payload : List Nat) :
    Conn × ReactionInner :=
  if c.state = TcpState.SynRcvd then
    if seqLt c.tcb.snd_una ack_number && seqLe ack_number c.tcb.snd_nxt then
      accept_ack
        { c with tcb := { c.tcb with
            snd_wnd := seg.window_len
            snd_wl1 := seg.seq_number
            snd_wl2 := ack_number } }
        seg ack_number payload
    else
      (c, .Reset (some (build_reset c ack_number)))
  else
    accept_ack c seg ack_number payload

/-- Central routine `Tcp::accept`.  Returns `none` where the Rust code
would panic (the sequence-number subtraction used for payload clipping
underflows, possible only for a segment half the sequence space away
from `rcv_nxt`). -/
def accept (c : Conn) (seg : TcpRepr) : Option (Conn × ReactionInner) :=
  if !(is_seg_acceptable c.tcb seg) then
    if seg.control = TcpControl.Rst then
      some (c, .NotAcceptable none)
    else
      let (c1, a) := build_ack c []
      some (c1, .NotAcceptable (some a))
  else if seqGt seg.seq_number c.tcb.rcv_nxt then
    some (c, .Acceptable none none)
  else
    match seqSub c.tcb.rcv_nxt seg.seq_number with
    | none => none
    | some idx =>
      let payload := if idx ≤ seg.payload.length then seg.payload.drop idx else []
      if seg.control = TcpControl.Rst then
        if seqEq seg.seq_number c.tcb.rcv_nxt then
          some (c, .Reset none)
        else
          let (c1, a) := build_ack c []
          some (c1, .NotAcceptable (some a))
      else if seg.control = TcpControl.Syn then
        let (c1, a) := build_ack c []
        some (c1, .NotAcceptable (some a))
      else
        match seg.ack_number with
        | some ack_number => some (accept_with_ack c seg ack_number payload)
        | none => some (c, .NotAcceptable none)

/-- Handshake initialisation `TcpListen::recv_syn`: build the TCB from
the parsed SYN, emit a SYN|ACK and advance `snd_nxt` past it. -/
def recv_syn (l : LocalAddr) (syn : TcpRepr) : Conn × TcpRepr :=
  let iss : Nat := 123
  let tcb : Tcb := {
    rcv_nxt := seqAdd syn.seq_number syn.segment_len
    rcv_wnd := 1000
    snd_wl1 := syn.seq_number
    snd_wl2 := iss
    snd_una := iss
    snd_nxt := iss
    snd_wnd := syn.window_len }
  let resp : TcpRepr := {
    src_port := l.port
    dst_port := syn.src_port
    control := TcpControl.Syn
    seq_number := iss
    ack_number := some tcb.rcv_nxt
    window_len := tcb.rcv_wnd
    payload := [] }
  let tcb := { tcb with snd_nxt := seqAdd tcb.snd_nxt resp.segment_len }
  ({ state := TcpState.SynRcvd
     local_port := l.port
     remote_port := syn.src_port
     tcb := tcb
     retransmission := [] }, resp)

/-- Data transmission `Tcp::<Established>::send`: build an ACK segment
carrying the data and push it onto the retransmission queue. -/
def send (c : Conn) (data : List Nat) : Conn × TcpRepr :=
  let (c1, a) := build_ack c data
  ({ c1 with retransmission := c1.retransmission ++ [a] }, a)

/-- Data transmission `Tcp::<CloseWait>::send`: build an ACK segment,
without queueing it. -/
def send_cw (c : Conn) (data : List Nat) : Conn × TcpRepr :=
  build_ack c data

/-- Local close (`Tcp::<Established>::close` to FinWait1, or
`Tcp::<CloseWait>::close` to LastAck): emit a FIN|ACK and transition. -/
def close (c : Conn) (target : TcpState) : Conn × TcpRepr :=
  let (c1, f) := build_fin c
  ({ c1 with state := target }, f)

/-- Read-only classifier snapshot (`Tcp::for_picker` clones the whole
connection object). -/
structure TcpForPicker where
  inner : Conn
deriving DecidableEq

/-- Clone step of `Tcp::for_picker`. -/
def for_picker (c : Conn) : TcpForPicker := { inner := c }

/-- Pre-classification `TcpForPicker::acceptable`: run `accept` on the
cloned connection. -/
def TcpForPicker.acceptable (p : TcpForPicker) (seg : TcpRepr) : Option (Conn × ReactionInner) :=
  accept p.inner seg

/-- Wrapper step `Reaction::from_inner`: on `Acceptable` the connection
transitions to the target state of the calling receive wrapper. -/
def Reaction.from_inner (target : TcpState) (p : Conn × ReactionInner) : Reaction :=
  match p with
  | (c, .Acceptable r d) => .Acceptable { c with state := target } r d
  | (c, .NotAcceptable r) => .NotAcceptable c r
  | (_, .Reset r) => .Reset r

/-- Receive wrappers `recv`, `recv_ack`, `recv_fin`: parse, run `accept`
and repackage through `Reaction::from_inner` with the state transition
appropriate to the wrapper. -/
def recv (c : Conn) (target : TcpState) (seg : TcpRepr) : Option Reaction :=
  (accept c seg).map (Reaction.from_inner target)

/-- Branch variant of a reaction, the classification a picker extracts. -/
inductive ReactionKind
  | Acceptable
  | NotAcceptable
  | Reset
deriving DecidableEq

/-- Variant of an inner reaction. -/
def ReactionInner.kind : ReactionInner → ReactionKind
  | .Acceptable _ _ => ReactionKind.Acceptable
  | .NotAcceptable _ => ReactionKind.NotAcceptable
  | .Reset _ => ReactionKind.Reset

/-- Variant of an outer reaction. -/
def Reaction.kind : Reaction → ReactionKind
  | .Acceptable _ _ _ => ReactionKind.Acceptable
  | .NotAcceptable _ _ => ReactionKind.NotAcceptable
  | .Reset _ => ReactionKind.Reset

/-- Challenge ACK as emitted by `build_ack(&[])` on an unchanged TCB:
empty, seq at `snd_nxt`, acking `rcv_nxt`. -/
def challenge_ack (c : Conn) : TcpRepr :=
  { src_port := c.local_port
    dst_port := c.remote_port
    control := TcpControl.None
    seq_number := c.tcb.snd_nxt
    ack_number := some c.tcb.rcv_nxt
    window_len := c.tcb.rcv_wnd
    payload := [] }

/-- Well-formedness of a TCB: sequence numbers are 32-bit values and the
windows are 16-bit values, as in the Rust field types. -/
def Tcb.wf (t : Tcb) : Prop :=
  t.snd_una < M32 ∧ t.snd_nxt < M32 ∧ t.snd_wnd < 65536 ∧ t.snd_wl1 < M32 ∧
    t.snd_wl2 < M32 ∧ t.rcv_nxt < M32 ∧ t.rcv_wnd < 65536

/-- Well-formedness of a parsed segment: 32-bit sequence and ack
numbers, 16-bit window, as guaranteed by the wire format. -/
def TcpRepr.wf (s : TcpRepr) : Prop :=
  s.seq_number < M32 ∧ s.window_len < 65536 ∧ (∀ a, s.ack_number = some a → a < M32)

instance (t : Tcb) : Decidable t.wf := by unfold Tcb.wf; infer_instance

instance (s : TcpRepr) : Decidable s.wf := by
  unfold TcpRepr.wf
  exact instDecidableAnd

/-- Shape of the retransmission queue relative to `snd_una` (base `u`)
and the in-flight span `D`: segment ends have strictly increasing
coordinates (distances from `u`) in `(lo, D]`, and only plain data ACKs
are queued. -/
def endsOk (u D : Nat) : Nat → List TcpRepr → Prop
  | _, [] => True
  | lo, e :: rest =>
    lo < seqDiff (endSeq e) u ∧ seqDiff (endSeq e) u ≤ D ∧
      e.control = TcpControl.None ∧ endsOk u D (seqDiff (endSeq e) u) rest

instance (u D lo : Nat) (q : List TcpRepr) : Decidable (endsOk u D lo q) := by
  induction q generalizing lo with
  | nil => exact isTrue trivial
  | cons e rest ih =>
    have : Decidable (endsOk u D (seqDiff (endSeq e) u) rest) := ih _
    unfold endsOk
    infer_instance

/-- Engine invariant: a well-formed TCB, an in-flight span strictly
below half the sequence space, and a retransmission queue of plain
unacknowledged data segments with increasing ends inside that span. -/
def Inv (c : Conn) : Prop :=
  c.tcb.wf ∧ seqDiff c.tcb.snd_nxt c.tcb.snd_una < HALF ∧
    endsOk c.tcb.snd_una (seqDiff c.tcb.snd_nxt c.tcb.snd_una) 0 c.retransmission

instance (c : Conn) : Decidable (Inv c) := by unfold Inv; infer_instance

/-- Membership of a sequence number in the receive window, written from
the spec's words: `rcv_nxt <= x < rcv_nxt + rcv_wnd` with all
comparisons taken modulo `2^32`, i.e. membership of the cyclic interval
of length `rcv_wnd` starting at `rcv_nxt`. -/
def spec_in_window (tcb : Tcb) (x : Nat) : Prop :=
  seqDiff x tcb.rcv_nxt < tcb.rcv_wnd

/-- Acceptance test written from the spec's words (RFC 9293 section
3.10.7.4 as quoted in the spec): an empty segment is acceptable iff its
sequence number equals `rcv_nxt` (zero window) or lies in the window; a
non-empty segment is rejected on a zero window and otherwise acceptable
iff its first or last sequence octet lies in the window. -/
def spec_seg_acceptable (tcb : Tcb) (seg : TcpRepr) : Prop :=
  if seg.segment_len = 0 then
    if tcb.rcv_wnd = 0 then
      seg.seq_number % M32 = tcb.rcv_nxt % M32
    else
      spec_in_window tcb seg.seq_number
  else
    if tcb.rcv_wnd = 0 then
      False
    else
      spec_in_window tcb seg.seq_number ∨
        spec_in_window tcb (seqAdd seg.seq_number (seg.segment_len - 1))

/-! Concrete values used to instantiate the theorems: an established
connection shortly after the handshake of scenario S1 of the spec, and a
few segments aimed at it. -/

def sampleLocal : LocalAddr := { port := 555 }

def estTcb : Tcb :=
  { snd_una := 124, snd_nxt := 124, snd_wnd := 4096, snd_wl1 := 1000,
    snd_wl2 := 123, rcv_nxt := 1001, rcv_wnd := 1000 }

def estConn : Conn :=
  { state := TcpState.Established, local_port := 555, remote_port := 7777,
    tcb := estTcb, retransmission := [] }

def synRcvdConn : Conn :=
  { estConn with state := TcpState.SynRcvd, tcb := { estTcb with snd_una := 123 } }

/-- In-window data segment starting exactly at `rcv_nxt`. -/
def dataSeg : TcpRepr :=
  { src_port := 7777, dst_port := 555, control := TcpControl.None,
    seq_number := 1001, ack_number := some 124, window_len := 4096,
    payload := [104, 105, 10] }

/-- In-window data segment strictly beyond `rcv_nxt` (a gap precedes
it), whose acknowledgement number is beyond `snd_nxt`. -/
def gapSeg : TcpRepr :=
  { dataSeg with seq_number := 1500, ack_number := some 200 }

/-- Fully acknowledged data segment: its whole span lies before
`rcv_nxt`. -/
def oldSeg : TcpRepr :=
  { dataSeg with seq_number := 901, payload := [1, 2, 3] }

/-- Empty in-window ACK segment at `rcv_nxt` whose acknowledgement
number is beyond `snd_nxt`. -/
def bigAckSeg : TcpRepr :=
  { dataSeg with payload := [], ack_number := some 200 }

/-- Empty ACK probe far outside the receive window (scenario S3 of the
spec), with an acknowledgement number beyond `snd_nxt`. -/
def probeSeg : TcpRepr :=
  { dataSeg with seq_number := 5000, payload := [], ack_number := some 200 }

/-- Pure SYN segment as accepted by the Listen-state filter. -/
def synSeg : TcpRepr :=
  { src_port := 7777, dst_port := 555, control := TcpControl.Syn,
    seq_number := 1000, ack_number := none, window_len := 4096,
    payload := [] }

/-- SYN segment carrying one payload byte; it still satisfies the
Listen-state filter, which only inspects the flags. -/
def synPayloadSeg : TcpRepr := { synSeg with payload := [42] }

/-! Arithmetic facts about the sequence-number embedding. -/

theorem seqDiff_lt (a b : Nat) : seqDiff a b < M32 := by
  unfold seqDiff M32
  omega

theorem seqDiff_self (a : Nat) : seqDiff a a = 0 := by
  unfold seqDiff M32
  omega

theorem seqEq_iff {a b : Nat} : seqEq a b = true ↔ a % M32 = b % M32 := by
  unfold seqEq
  exact beq_iff_eq

theorem seqEq_iff_diff {a b : Nat} : seqEq a b = true ↔ seqDiff a b = 0 := by
  rw [seqEq_iff]
  unfold seqDiff M32
  omega

theorem seqLt_iff {a b : Nat} : seqLt a b = true ↔ HALF ≤ seqDiff a b := by
  unfold seqLt
  exact decide_eq_true_iff

theorem seqLe_iff {a b : Nat} : seqLe a b = true ↔ seqDiff a b = 0 ∨ HALF ≤ seqDiff a b := by
  unfold seqLe
  rw [Bool.or_eq_true, seqEq_iff_diff, seqLt_iff]

theorem seqLe_iff_diff {a b : Nat} : seqLe a b = true ↔ seqDiff b a ≤ HALF := by
  rw [seqLe_iff]
  unfold seqDiff M32 HALF
  omega

theorem seqGt_iff {a b : Nat} : seqGt a b = true ↔ 0 < seqDiff a b ∧ seqDiff a b < HALF := by
  unfold seqGt
  rw [Bool.not_eq_true', ← Bool.not_eq_true, seqLe_iff]
  have := seqDiff_lt a b
  unfold M32 HALF at *
  constructor
  · intro h
    omega
  · intro h h'
    omega

theorem seqGt_eq_false_iff {a b : Nat} :
    seqGt a b = false ↔ seqDiff a b = 0 ∨ HALF ≤ seqDiff a b := by
  rw [← seqLe_iff]
  cases h : seqLe a b <;> simp [seqGt, h]

theorem seqAdd_eq_of_lt {a : Nat} (h : a < M32) : seqAdd a 0 = a := by
  unfold seqAdd M32 at *
  omega

theorem seqDiff_mod_right (a b : Nat) : seqDiff a (b % M32) = seqDiff a b := by
  unfold seqDiff M32
  omega

theorem seqDiff_mod_left (a b : Nat) : seqDiff (a % M32) b = seqDiff a b := by
  unfold seqDiff M32
  omega

theorem seqDiff_seqAdd (x n u : Nat) : seqDiff (seqAdd x n) u = (seqDiff x u + n) % M32 := by
  unfold seqDiff seqAdd M32
  omega

theorem seqDiff_coord_sub {u a x : Nat} (h : seqDiff a u ≤ seqDiff x u) :
    seqDiff x a = seqDiff x u - seqDiff a u := by
  unfold seqDiff M32 at *
  omega

theorem seqDiff_right_seqAdd (x y k : Nat) (hk : k ≤ seqDiff x y) :
    seqDiff x (seqAdd y k) = seqDiff x y - k := by
  unfold seqDiff seqAdd M32 at *
  omega

theorem seqDiff_zero_symm {a b : Nat} : seqDiff a b = 0 ↔ seqDiff b a = 0 := by
  unfold seqDiff M32
  omega

theorem seqLe_coord {u x y : Nat} (hx : seqDiff x u < HALF) (hy : seqDiff y u < HALF) :
    seqLe x y = true ↔ seqDiff x u ≤ seqDiff y u := by
  rw [seqLe_iff]
  unfold seqDiff M32 HALF at *
  omega

theorem seqLt_coord {u x y : Nat} (hx : seqDiff x u < HALF) (hy : seqDiff y u < HALF) :
    seqLt x y = true ↔ seqDiff x u < seqDiff y u := by
  rw [seqLt_iff]
  unfold seqDiff M32 HALF at *
  omega

theorem seqGt_of_coord {u x : Nat} (h0 : 0 < seqDiff x u) (h1 : seqDiff x u < HALF) :
    seqGt x u = true := by
  rw [seqGt_iff]
  exact ⟨h0, h1⟩

/-- Characterisation of the ACK-update guard `snd_una < ack <= snd_nxt`
in coordinates relative to `snd_una`, assuming the in-flight span is
below half the sequence space and the acknowledgement is not exactly
antipodal to `snd_una`. -/
theorem guard_coord {u n a : Nat} (hn : seqDiff n u < HALF) (hna : seqDiff a u ≠ HALF) :
    (seqLt u a && seqLe a n) = true ↔ 0 < seqDiff a u ∧ seqDiff a u ≤ seqDiff n u := by
  rw [Bool.and_eq_true, seqLt_iff, seqLe_iff]
  have h1 := seqDiff_lt a u
  have h2 := seqDiff_lt u a
  have h3 := seqDiff_lt n u
  have h4 := seqDiff_lt a n
  unfold seqDiff M32 HALF at *
  omega

/-- Under a window size below half the sequence space, the code's pair
of sign-based comparisons recognises exactly the cyclic interval of
length `w` starting at `u`. -/
theorem window_check {u w x : Nat} (hw0 : 0 < w) (hw : w < HALF) :
    (seqLe u x = true ∧ seqLt x (seqAdd u w) = true) ↔ seqDiff x u < w := by
  simp only [seqLe, seqLt, seqEq, Bool.or_eq_true, beq_iff_eq, decide_eq_true_eq]
  unfold seqDiff seqAdd M32 HALF at *
  omega

/-! Facts about the segment builders and the pieces of `accept`. -/

theorem build_ack_nil {c : Conn} (h : c.tcb.snd_nxt < M32) :
    build_ack c [] = (c, challenge_ack c) := by
  show ({ c with tcb := { c.tcb with snd_nxt := seqAdd c.tcb.snd_nxt 0 } }, _) = _
  rw [seqAdd_eq_of_lt h]
  rfl

theorem wl_update_spec (c : Conn) (seg : TcpRepr) (a : Nat) :
    (wl_update c seg a).state = c.state ∧
    (wl_update c seg a).local_port = c.local_port ∧
    (wl_update c seg a).remote_port = c.remote_port ∧
    (wl_update c seg a).retransmission = c.retransmission ∧
    (wl_update c seg a).tcb.snd_una = c.tcb.snd_una ∧
    (wl_update c seg a).tcb.snd_nxt = c.tcb.snd_nxt ∧
    (wl_update c seg a).tcb.rcv_nxt = c.tcb.rcv_nxt ∧
    (wl_update c seg a).tcb.rcv_wnd = c.tcb.rcv_wnd ∧
    ((wl_update c seg a).tcb.snd_wnd = c.tcb.snd_wnd ∨
      (wl_update c seg a).tcb.snd_wnd = seg.window_len) ∧
    ((wl_update c seg a).tcb.snd_wl1 = c.tcb.snd_wl1 ∨
      (wl_update c seg a).tcb.snd_wl1 = seg.seq_number) ∧
    ((wl_update c seg a).tcb.snd_wl2 = c.tcb.snd_wl2 ∨
      (wl_update c seg a).tcb.snd_wl2 = a) := by
  unfold wl_update
  split
  · split
    · simp
    · simp
  · simp

theorem accept_finish_spec {c : Conn} {seg : TcpRepr} {a : Nat} {p : List Nat}
    {c2 : Conn} {r : ReactionInner}
    (h : c.tcb.snd_nxt < M32) (heq : accept_finish c seg a p = (c2, r)) :
    (∃ resp,
      r = ReactionInner.Acceptable resp (if 0 < p.length then some p else none) ∧
      (resp.isSome ↔ 0 < seg.segment_len)) ∧
    c2.state = c.state ∧
    c2.local_port = c.local_port ∧ c2.remote_port = c.remote_port ∧
    c2.retransmission = c.retransmission ∧
    c2.tcb.snd_una = c.tcb.snd_una ∧
    c2.tcb.snd_nxt = c.tcb.snd_nxt ∧
    c2.tcb.rcv_nxt = seqAdd seg.seq_number seg.segment_len ∧
    c2.tcb.rcv_wnd = c.tcb.rcv_wnd ∧
    (c2.tcb.snd_wnd = c.tcb.snd_wnd ∨ c2.tcb.snd_wnd = seg.window_len) ∧
    (c2.tcb.snd_wl1 = c.tcb.snd_wl1 ∨ c2.tcb.snd_wl1 = seg.seq_number) ∧
    (c2.tcb.snd_wl2 = c.tcb.snd_wl2 ∨ c2.tcb.snd_wl2 = a) := by
  obtain ⟨w1, w2, w3, w4, w5, w6, w7, w8, w9, w10, w11⟩ := wl_update_spec c seg a
  by_cases h3 : 0 < seg.segment_len
  · simp only [accept_finish, if_pos h3, build_ack, build_ack_raw] at heq
    rw [Prod.mk.injEq] at heq
    obtain ⟨hc2, hr⟩ := heq
    subst hc2
    subst hr
    refine ⟨⟨_, rfl, by simpa using h3⟩, w1, w2, w3, w4, w5, ?_, rfl, w8, w9, w10, w11⟩
    rw [← w6] at h ⊢
    exact seqAdd_eq_of_lt h
  · simp only [accept_finish, if_neg h3] at heq
    rw [Prod.mk.injEq] at heq
    obtain ⟨hc2, hr⟩ := heq
    subst hc2
    subst hr
    exact ⟨⟨none, rfl, by simpa using h3⟩, w1, w2, w3, w4, w5, w6, rfl, w8, w9, w10, w11⟩

theorem accept_with_ack_of_not_synrcvd {c : Conn} {seg : TcpRepr} {a : Nat} {p : List Nat}
    (hs : c.state ≠ TcpState.SynRcvd) :
    accept_with_ack c seg a p = accept_ack c seg a p := by
  unfold accept_with_ack
  rw [if_neg hs]

/-- Inversion principle for `accept`: a successful run took exactly one
of the branches of the Rust routine. -/
theorem accept_spec {c : Conn} {seg : TcpRepr} {c' : Conn} {r : ReactionInner}
    (hwf : c.tcb.snd_nxt < M32)
    (heq : accept c seg = some (c', r)) :
    (is_seg_acceptable c.tcb seg = false ∧ seg.control = TcpControl.Rst ∧
      c' = c ∧ r = ReactionInner.NotAcceptable none) ∨
    (is_seg_acceptable c.tcb seg = false ∧ seg.control ≠ TcpControl.Rst ∧
      c' = c ∧ r = ReactionInner.NotAcceptable (some (challenge_ack c))) ∨
    (is_seg_acceptable c.tcb seg = true ∧ seqGt seg.seq_number c.tcb.rcv_nxt = true ∧
      c' = c ∧ r = ReactionInner.Acceptable none none) ∨
    (∃ idx,
      is_seg_acceptable c.tcb seg = true ∧ seqGt seg.seq_number c.tcb.rcv_nxt = false ∧
      seqSub c.tcb.rcv_nxt seg.seq_number = some idx ∧
      ((seg.control = TcpControl.Rst ∧ seqEq seg.seq_number c.tcb.rcv_nxt = true ∧
          c' = c ∧ r = ReactionInner.Reset none) ∨
       (seg.control = TcpControl.Rst ∧ seqEq seg.seq_number c.tcb.rcv_nxt = false ∧
          c' = c ∧ r = ReactionInner.NotAcceptable (some (challenge_ack c))) ∨
       (seg.control ≠ TcpControl.Rst ∧ seg.control = TcpControl.Syn ∧
          c' = c ∧ r = ReactionInner.NotAcceptable (some (challenge_ack c))) ∨
       (seg.control ≠ TcpControl.Rst ∧ seg.control ≠ TcpControl.Syn ∧
          seg.ack_number = none ∧ c' = c ∧ r = ReactionInner.NotAcceptable none) ∨
       (∃ a, seg.control ≠ TcpControl.Rst ∧ seg.control ≠ TcpControl.Syn ∧
          seg.ack_number = some a ∧
          accept_with_ack c seg a
            (if idx ≤ seg.payload.length then seg.payload.drop idx else []) = (c', r)))) := by
  unfold accept at heq
  by_cases hacc : is_seg_acceptable c.tcb seg = true
  · rw [hacc] at heq
    simp only [Bool.not_true, Bool.false_eq_true, if_false] at heq
    by_cases hgap : seqGt seg.seq_number c.tcb.rcv_nxt = true
    · rw [if_pos hgap] at heq
      rw [Option.some.injEq, Prod.mk.injEq] at heq
      exact Or.inr (Or.inr (Or.inl ⟨hacc, hgap, heq.1.symm, heq.2.symm⟩))
    · rw [if_neg hgap] at heq
      rw [Bool.not_eq_true] at hgap
      cases hsub : seqSub c.tcb.rcv_nxt seg.seq_number with
      | none => rw [hsub] at heq; exact absurd heq (by simp)
      | some idx =>
        rw [hsub] at heq
        simp only [] at heq
        refine Or.inr (Or.inr (Or.inr ⟨idx, hacc, hgap, rfl, ?_⟩))
        by_cases hrst : seg.control = TcpControl.Rst
        · rw [if_pos hrst] at heq
          by_cases hse : seqEq seg.seq_number c.tcb.rcv_nxt = true
          · rw [if_pos hse] at heq
            rw [Option.some.injEq, Prod.mk.injEq] at heq
            exact Or.inl ⟨hrst, hse, heq.1.symm, heq.2.symm⟩
          · rw [if_neg hse] at heq
            rw [build_ack_nil hwf] at heq
            rw [Option.some.injEq, Prod.mk.injEq] at heq
            exact Or.inr (Or.inl ⟨hrst, Bool.not_eq_true _ ▸ hse, heq.1.symm, heq.2.symm⟩)
        · rw [if_neg hrst] at heq
          by_cases hsyn : seg.control = TcpControl.Syn
          · rw [if_pos hsyn] at heq
            rw [build_ack_nil hwf] at heq
            rw [Option.some.injEq, Prod.mk.injEq] at heq
            exact Or.inr (Or.inr (Or.inl ⟨hrst, hsyn, heq.1.symm, heq.2.symm⟩))
          · rw [if_neg hsyn] at heq
            cases hackn : seg.ack_number with
            | none =>
              rw [hackn] at heq
              rw [Option.some.injEq, Prod.mk.injEq] at heq
              exact Or.inr (Or.inr (Or.inr (Or.inl ⟨hrst, hsyn, rfl, heq.1.symm, heq.2.symm⟩)))
            | some a =>
              rw [hackn] at heq
              rw [Option.some.injEq] at heq
              exact Or.inr (Or.inr (Or.inr (Or.inr ⟨a, hrst, hsyn, rfl, heq⟩)))
  · rw [Bool.not_eq_true] at hacc
    rw [hacc] at heq
    simp only [Bool.not_false, if_true] at heq
    by_cases hrst : seg.control = TcpControl.Rst
    · rw [if_pos hrst] at heq
      rw [Option.some.injEq, Prod.mk.injEq] at heq
      exact Or.inl ⟨hacc, hrst, heq.1.symm, heq.2.symm⟩
    · rw [if_neg hrst] at heq
      rw [build_ack_nil hwf] at heq
      rw [Option.some.injEq, Prod.mk.injEq] at heq
      exact Or.inr (Or.inl ⟨hacc, hrst, heq.1.symm, heq.2.symm⟩)

/-- Inversion principle for `accept_with_ack`: the SYN-RECEIVED reset,
the acknowledgement update followed by `accept_finish`, the challenge
ACK for an acknowledgement beyond `snd_nxt`, or the duplicate-ACK fall
through to `accept_finish`. -/
theorem accept_with_ack_spec {c : Conn} {seg : TcpRepr} {a : Nat} {p : List Nat}
    {c' : Conn} {r : ReactionInner}
    (hwf : c.tcb.snd_nxt < M32)
    (heq : accept_with_ack c seg a p = (c', r)) :
    (c.state = TcpState.SynRcvd ∧
      (seqLt c.tcb.snd_una a && seqLe a c.tcb.snd_nxt) = false ∧
      c' = c ∧ r = ReactionInner.Reset (some (build_reset c a))) ∨
    ((seqLt c.tcb.snd_una a && seqLe a c.tcb.snd_nxt) = true ∧
      ∃ c0, (c0 = c ∨ (c.state = TcpState.SynRcvd ∧
              c0 = { c with tcb := { c.tcb with
                       snd_wnd := seg.window_len
                       snd_wl1 := seg.seq_number
                       snd_wl2 := a } })) ∧
        c0.tcb.snd_una = c.tcb.snd_una ∧ c0.tcb.snd_nxt = c.tcb.snd_nxt ∧
        c0.tcb.rcv_nxt = c.tcb.rcv_nxt ∧ c0.tcb.rcv_wnd = c.tcb.rcv_wnd ∧
        c0.state = c.state ∧ c0.retransmission = c.retransmission ∧
        c0.local_port = c.local_port ∧ c0.remote_port = c.remote_port ∧
        accept_finish { c0 with
          tcb := { c0.tcb with snd_una := a }
          retransmission := popAcked c0.retransmission a } seg a p = (c', r)) ∨
    ((seqLt c.tcb.snd_una a && seqLe a c.tcb.snd_nxt) = false ∧
      seqGt a c.tcb.snd_nxt = true ∧
      c' = c ∧ r = ReactionInner.NotAcceptable (some (challenge_ack c))) ∨
    ((seqLt c.tcb.snd_una a && seqLe a c.tcb.snd_nxt) = false ∧
      seqGt a c.tcb.snd_nxt = false ∧
      accept_finish c seg a p = (c', r)) := by
  unfold accept_with_ack at heq
  by_cases hs : c.state = TcpState.SynRcvd
  · rw [if_pos hs] at heq
    by_cases hg : (seqLt c.tcb.snd_una a && seqLe a c.tcb.snd_nxt) = true
    · rw [if_pos hg] at heq
      unfold accept_ack at heq
      rw [if_pos (show _ = true from hg)] at heq
      exact Or.inr (Or.inl ⟨hg, _, Or.inr ⟨hs, rfl⟩, rfl, rfl, rfl, rfl, rfl, rfl, rfl, rfl, heq⟩)
    · rw [if_neg hg] at heq
      rw [Prod.mk.injEq] at heq
      exact Or.inl ⟨hs, Bool.not_eq_true _ ▸ hg, heq.1.symm, heq.2.symm⟩
  · rw [if_neg hs] at heq
    unfold accept_ack at heq
    by_cases hg : (seqLt c.tcb.snd_una a && seqLe a c.tcb.snd_nxt) = true
    · rw [if_pos hg] at heq
      exact Or.inr (Or.inl ⟨hg, _, Or.inl rfl, rfl, rfl, rfl, rfl, rfl, rfl, rfl, rfl, heq⟩)
    · rw [if_neg hg] at heq
      rw [Bool.not_eq_true] at hg
      by_cases hgt : seqGt a c.tcb.snd_nxt = true
      · rw [if_pos hgt] at heq
        rw [build_ack_nil hwf] at heq
        rw [Prod.mk.injEq] at heq
        exact Or.inr (Or.inr (Or.inl ⟨hg, hgt, heq.1.symm, heq.2.symm⟩))
      · rw [if_neg hgt] at heq
        rw [Bool.not_eq_true] at hgt
        exact Or.inr (Or.inr (Or.inr ⟨hg, hgt, heq⟩))

theorem seqAdd_lt_m32 (a n : Nat) : seqAdd a n < M32 := by
  unfold seqAdd M32
  omega

theorem seqLe_seqAdd_of_bound {u n : Nat} (k : Nat)
    (h : seqDiff n u + k ≤ HALF) : seqLe u (seqAdd n k) = true := by
  rw [seqLe_iff_diff, seqDiff_seqAdd]
  have := seqDiff_lt n u
  unfold M32 HALF at *
  omega

theorem seqDiff_seqAdd_small {u n : Nat} (k : Nat)
    (h : seqDiff n u + k < M32) : seqDiff (seqAdd n k) u = seqDiff n u + k := by
  rw [seqDiff_seqAdd]
  unfold M32 at *
  omega

theorem send_fst_tcb_snd_una (c : Conn) (data : List Nat) :
    (send c data).1.tcb.snd_una = c.tcb.snd_una := rfl

theorem send_fst_tcb_snd_nxt (c : Conn) (data : List Nat) :
    (send c data).1.tcb.snd_nxt = seqAdd c.tcb.snd_nxt (data.length + 0) := rfl

/-! Facts about the retransmission-queue invariant. -/

theorem endsOk_mono {u D D' lo : Nat} {q : List TcpRepr}
    (h : endsOk u D lo q) (hDD : D ≤ D') : endsOk u D' lo q := by
  induction q generalizing lo with
  | nil => trivial
  | cons e rest ih =>
    obtain ⟨h1, h2, h3, h4⟩ := h
    exact ⟨h1, h2.trans hDD, h3, ih h4⟩

theorem endsOk_append {u D D' lo : Nat} {q : List TcpRepr} {e : TcpRepr}
    (h : endsOk u D lo q) (hlo : lo ≤ D)
    (hgt : D < seqDiff (endSeq e) u) (hle : seqDiff (endSeq e) u ≤ D')
    (hDD : D ≤ D') (hctl : e.control = TcpControl.None) :
    endsOk u D' lo (q ++ [e]) := by
  induction q generalizing lo with
  | nil => exact ⟨hlo.trans_lt hgt, hle, hctl, trivial⟩
  | cons f rest ih =>
    obtain ⟨h1, h2, h3, h4⟩ := h
    exact ⟨h1, h2.trans hDD, h3, ih h4 h2⟩

theorem endsOk_mem {u D lo : Nat} {q : List TcpRepr} (h : endsOk u D lo q) :
    ∀ e ∈ q, lo < seqDiff (endSeq e) u ∧ seqDiff (endSeq e) u ≤ D ∧
      e.control = TcpControl.None := by
  induction q generalizing lo with
  | nil =>
    intro e he
    cases he
  | cons f rest ih =>
    obtain ⟨h1, h2, h3, h4⟩ := h
    intro e he
    rcases List.mem_cons.mp he with rfl | hmem
    · exact ⟨h1, h2, h3⟩
    · obtain ⟨g1, g2, g3⟩ := ih h4 e hmem
      exact ⟨h1.trans g1, g2, g3⟩

theorem endsOk_shift {u a D lo : Nat} {q : List TcpRepr}
    (h : endsOk u D lo q) (hda : seqDiff a u ≤ lo) :
    endsOk a (D - seqDiff a u) (lo - seqDiff a u) q := by
  induction q generalizing lo with
  | nil => trivial
  | cons f rest ih =>
    obtain ⟨h1, h2, h3, h4⟩ := h
    have hc : seqDiff (endSeq f) a = seqDiff (endSeq f) u - seqDiff a u :=
      seqDiff_coord_sub (hda.trans h1.le)
    refine ⟨?_, ?_, h3, ?_⟩
    · rw [hc]; omega
    · rw [hc]; omega
    · rw [hc]
      exact ih h4 (hda.trans h1.le)

/-- Popping acknowledged segments preserves the queue shape,
re-expressed relative to the new `snd_una` value `a`. -/
theorem popAcked_endsOk {u a D : Nat} {q : List TcpRepr} {lo : Nat}
    (h : endsOk u D lo q) (hD : D < HALF)
    (_hda0 : 0 < seqDiff a u) (hdale : seqDiff a u ≤ D) :
    endsOk a (D - seqDiff a u) 0 (popAcked q a) := by
  induction q generalizing lo with
  | nil => trivial
  | cons e rest ih =>
    obtain ⟨h1, h2, h3, h4⟩ := h
    have hxH : seqDiff (endSeq e) u < HALF := lt_of_le_of_lt h2 hD
    have haH : seqDiff a u < HALF := lt_of_le_of_lt hdale hD
    unfold popAcked
    by_cases hle : seqLe (endSeq e) a = true
    · rw [if_pos hle]
      exact ih h4
    · rw [if_neg hle]
      have hgt : seqDiff a u < seqDiff (endSeq e) u := by
        rcases Nat.lt_or_ge (seqDiff a u) (seqDiff (endSeq e) u) with h' | h'
        · exact h'
        · exact absurd ((seqLe_coord hxH haH).mpr h') hle
      have hc : seqDiff (endSeq e) a = seqDiff (endSeq e) u - seqDiff a u :=
        seqDiff_coord_sub hgt.le
      refine ⟨?_, ?_, h3, ?_⟩
      · rw [hc]; omega
      · rw [hc]; omega
      · rw [hc]
        exact endsOk_shift h4 hgt.le

/-- On a well-shaped queue the pop loop removes exactly the segments
whose end the acknowledgement has passed. -/
theorem popAcked_filter {u a D lo : Nat} {q : List TcpRepr}
    (h : endsOk u D lo q) (hD : D < HALF)
    (hda0 : 0 < seqDiff a u) (hdaH : seqDiff a u < HALF) :
    popAcked q a = q.filter (fun e => seqGt (endSeq e) a) := by
  induction q generalizing lo with
  | nil => rfl
  | cons e rest ih =>
    obtain ⟨h1, h2, h3, h4⟩ := h
    have hxH : seqDiff (endSeq e) u < HALF := lt_of_le_of_lt h2 hD
    unfold popAcked
    by_cases hle : seqLe (endSeq e) a = true
    · rw [if_pos hle]
      have hpred : seqGt (endSeq e) a = false := by
        unfold seqGt
        rw [hle]
        rfl
      rw [List.filter_cons_of_neg (by simp [hpred])]
      exact ih h4
    · rw [if_neg hle]
      have hgt : seqDiff a u < seqDiff (endSeq e) u := by
        rcases Nat.lt_or_ge (seqDiff a u) (seqDiff (endSeq e) u) with h' | h'
        · exact h'
        · exact absurd ((seqLe_coord hxH hdaH).mpr h') hle
      have hpred : seqGt (endSeq e) a = true := by
        have hle' : seqLe (endSeq e) a = false := by
          simpa using hle
        unfold seqGt
        rw [hle']
        rfl
      rw [List.filter_cons_of_pos (by simp [hpred])]
      congr 1
      symm
      rw [List.filter_eq_self]
      intro f hf
      obtain ⟨g1, g2, g3⟩ := endsOk_mem h4 f hf
      have hcf : seqDiff (endSeq f) a = seqDiff (endSeq f) u - seqDiff a u :=
        seqDiff_coord_sub (hgt.le.trans g1.le)
      have : seqGt (endSeq f) a = true := by
        apply seqGt_of_coord
        · rw [hcf]; omega
        · rw [hcf]
          unfold HALF at *
          omega
      simpa using this

/-- Helper for the bookkeeping of fully acknowledged segments: a
segment whose whole span lies strictly before `rcv_nxt` (at a distance
below half the sequence space) fails the acceptance test. -/
theorem old_span_not_acceptable (tcb : Tcb) (seg : TcpRepr)
    (hb0 : 0 < seqDiff tcb.rcv_nxt seg.seq_number)
    (hbh : seqDiff tcb.rcv_nxt seg.seq_number < HALF)
    (hlen : seg.segment_len ≤ seqDiff tcb.rcv_nxt seg.seq_number) :
    is_seg_acceptable tcb seg = false := by
  have hseq : seqLe tcb.rcv_nxt seg.seq_number = false := by
    rw [Bool.eq_false_iff]
    intro h
    rw [seqLe_iff] at h
    omega
  have hlast : seqLe tcb.rcv_nxt (seqAdd seg.seq_number (seg.segment_len - 1)) = false := by
    rw [Bool.eq_false_iff]
    intro h
    rw [seqLe_iff, seqDiff_right_seqAdd tcb.rcv_nxt seg.seq_number (seg.segment_len - 1)
      (by omega)] at h
    unfold HALF at *
    omega
  have hne : seqEq seg.seq_number tcb.rcv_nxt = false := by
    rw [Bool.eq_false_iff]
    intro h
    rw [seqEq_iff_diff, seqDiff_zero_symm] at h
    omega
  unfold is_seg_acceptable
  simp only [hseq, hlast, hne, Bool.false_and, Bool.or_self, ite_self]

/-! Preservation of the engine invariant `Inv`. -/

theorem recv_syn_inv (l : LocalAddr) (seg : TcpRepr) (hwseg : seg.wf) :
    Inv (recv_syn l seg).1 := by
  refine ⟨⟨?_, ?_, ?_, ?_, ?_, ?_, ?_⟩, ?_, trivial⟩
  · show (123 : Nat) < M32
    decide
  · exact seqAdd_lt_m32 _ _
  · exact hwseg.2.1
  · exact hwseg.1
  · show (123 : Nat) < M32
    decide
  · exact seqAdd_lt_m32 _ _
  · show (1000 : Nat) < 65536
    decide
  · show seqDiff (seqAdd 123 1) 123 < HALF
    decide

theorem send_inv (c : Conn) (data : List Nat) (hInv : Inv c) (hlen : 0 < data.length)
    (hbound : seqDiff c.tcb.snd_nxt c.tcb.snd_una + data.length < HALF) :
    Inv (send c data).1 := by
  obtain ⟨⟨w1, w2, w3, w4, w5, w6, w7⟩, hdn, hq⟩ := hInv
  have hM : seqDiff c.tcb.snd_nxt c.tcb.snd_una + (data.length + 0) < M32 := by
    unfold HALF M32 at *
    omega
  have hsmall := seqDiff_seqAdd_small (u := c.tcb.snd_una) (n := c.tcb.snd_nxt)
    (data.length + 0) hM
  have hendseq : endSeq (build_ack c data).2 = seqAdd c.tcb.snd_nxt (data.length + 0) := rfl
  refine ⟨⟨w1, seqAdd_lt_m32 _ _, w3, w4, w5, w6, w7⟩, ?_, ?_⟩
  · show seqDiff (seqAdd c.tcb.snd_nxt (data.length + 0)) c.tcb.snd_una < HALF
    rw [hsmall]
    omega
  · show endsOk c.tcb.snd_una
      (seqDiff (seqAdd c.tcb.snd_nxt (data.length + 0)) c.tcb.snd_una) 0
      (c.retransmission ++ [(build_ack c data).2])
    rw [hsmall]
    refine endsOk_append hq (Nat.zero_le _) ?_ ?_ (by omega) rfl
    · rw [hendseq, hsmall]
      omega
    · rw [hendseq, hsmall]

theorem close_inv (c : Conn) (target : TcpState) (hInv : Inv c)
    (hbound : seqDiff c.tcb.snd_nxt c.tcb.snd_una + 1 < HALF) :
    Inv (close c target).1 := by
  obtain ⟨⟨w1, w2, w3, w4, w5, w6, w7⟩, hdn, hq⟩ := hInv
  have hM : seqDiff c.tcb.snd_nxt c.tcb.snd_una + (0 + 1) < M32 := by
    unfold HALF M32 at *
    omega
  have hsmall := seqDiff_seqAdd_small (u := c.tcb.snd_una) (n := c.tcb.snd_nxt) (0 + 1) hM
  refine ⟨⟨w1, seqAdd_lt_m32 _ _, w3, w4, w5, w6, w7⟩, ?_, ?_⟩
  · show seqDiff (seqAdd c.tcb.snd_nxt (0 + 1)) c.tcb.snd_una < HALF
    rw [hsmall]
    omega
  · show endsOk c.tcb.snd_una
      (seqDiff (seqAdd c.tcb.snd_nxt (0 + 1)) c.tcb.snd_una) 0 c.retransmission
    rw [hsmall]
    exact endsOk_mono hq (by omega)

theorem send_cw_inv (c : Conn) (data : List Nat) (hInv : Inv c)
    (hbound : seqDiff c.tcb.snd_nxt c.tcb.snd_una + data.length < HALF) :
    Inv (send_cw c data).1 := by
  obtain ⟨⟨w1, w2, w3, w4, w5, w6, w7⟩, hdn, hq⟩ := hInv
  have hM : seqDiff c.tcb.snd_nxt c.tcb.snd_una + (data.length + 0) < M32 := by
    unfold HALF M32 at *
    omega
  have hsmall := seqDiff_seqAdd_small (u := c.tcb.snd_una) (n := c.tcb.snd_nxt)
    (data.length + 0) hM
  refine ⟨⟨w1, seqAdd_lt_m32 _ _, w3, w4, w5, w6, w7⟩, ?_, ?_⟩
  · show seqDiff (seqAdd c.tcb.snd_nxt (data.length + 0)) c.tcb.snd_una < HALF
    rw [hsmall]
    omega
  · show endsOk c.tcb.snd_una
      (seqDiff (seqAdd c.tcb.snd_nxt (data.length + 0)) c.tcb.snd_una) 0 c.retransmission
    rw [hsmall]
    exact endsOk_mono hq (by omega)

theorem accept_inv (c c' : Conn) (seg : TcpRepr) (r : ReactionInner)
    (hInv : Inv c) (hwseg : seg.wf)
    (hna : ∀ a, seg.ack_number = some a → seqDiff a c.tcb.snd_una ≠ HALF)
    (heq : accept c seg = some (c', r)) :
    Inv c' := by
  obtain ⟨hwf, hdn, hq⟩ := hInv
  obtain ⟨w1, w2, w3, w4, w5, w6, w7⟩ := hwf
  have hwfn : c.tcb.snd_nxt < M32 := w2
  have hInv' : Inv c := ⟨⟨w1, w2, w3, w4, w5, w6, w7⟩, hdn, hq⟩
  rcases accept_spec hwfn heq with
    ⟨_, _, hc, _⟩ | ⟨_, _, hc, _⟩ | ⟨_, _, hc, _⟩ | ⟨idx, _, _, _, hbr⟩
  · rw [hc]; exact hInv'
  · rw [hc]; exact hInv'
  · rw [hc]; exact hInv'
  rcases hbr with ⟨_, _, hc, _⟩ | ⟨_, _, hc, _⟩ | ⟨_, _, hc, _⟩ |
      ⟨_, _, _, hc, _⟩ | ⟨a, _, _, hacka, hwa⟩
  · rw [hc]; exact hInv'
  · rw [hc]; exact hInv'
  · rw [hc]; exact hInv'
  · rw [hc]; exact hInv'
  have haM : a < M32 := hwseg.2.2 a hacka
  rcases accept_with_ack_spec hwfn hwa with
    ⟨_, _, hc, _⟩ | ⟨hg, c0, hc0, hu0, hn0, hrn0, hrw0, hst0, hret0, _, _, hfin⟩ |
    ⟨_, _, hc, _⟩ | ⟨_, _, hfin⟩
  · rw [hc]; exact hInv'
  · -- acknowledgement accepted: snd_una := a, queue popped, then finish
    have hna' : seqDiff a c.tcb.snd_una ≠ HALF := hna a hacka
    obtain ⟨hda0, hdale⟩ := (guard_coord hdn hna').mp hg
    have hwf1 : ({ c0 with
        tcb := { c0.tcb with snd_una := a }
        retransmission := popAcked c0.retransmission a } : Conn).tcb.snd_nxt < M32 := by
      show c0.tcb.snd_nxt < M32
      rw [hn0]
      exact w2
    obtain ⟨_, _, _, _, hret', hu', hn', hrcv', hrw', hwnd', hwl1', hwl2'⟩ :=
      accept_finish_spec hwf1 hfin
    have e_una : c'.tcb.snd_una = a := by rw [hu']
    have e_nxt : c'.tcb.snd_nxt = c.tcb.snd_nxt := by
      rw [hn']
      exact hn0
    have e_ret : c'.retransmission = popAcked c.retransmission a := by
      rw [hret']
      show popAcked c0.retransmission a = popAcked c.retransmission a
      rw [hret0]
    have e_rw : c'.tcb.rcv_wnd = c.tcb.rcv_wnd := by
      rw [hrw']
      exact hrw0
    have e_wnd : c'.tcb.snd_wnd < 65536 := by
      rcases hwnd' with h | h
      · rw [h]
        show c0.tcb.snd_wnd < 65536
        rcases hc0 with rfl | ⟨_, rfl⟩
        · exact w3
        · exact hwseg.2.1
      · rw [h]
        exact hwseg.2.1
    have e_wl1 : c'.tcb.snd_wl1 < M32 := by
      rcases hwl1' with h | h
      · rw [h]
        show c0.tcb.snd_wl1 < M32
        rcases hc0 with rfl | ⟨_, rfl⟩
        · exact w4
        · exact hwseg.1
      · rw [h]
        exact hwseg.1
    have e_wl2 : c'.tcb.snd_wl2 < M32 := by
      rcases hwl2' with h | h
      · rw [h]
        show c0.tcb.snd_wl2 < M32
        rcases hc0 with rfl | ⟨_, rfl⟩
        · exact w5
        · exact haM
      · rw [h]
        exact haM
    have e_dn : seqDiff c'.tcb.snd_nxt c'.tcb.snd_una =
        seqDiff c.tcb.snd_nxt c.tcb.snd_una - seqDiff a c.tcb.snd_una := by
      rw [e_nxt, e_una]
      exact seqDiff_coord_sub hdale
    refine ⟨⟨?_, ?_, e_wnd, e_wl1, e_wl2, ?_, ?_⟩, ?_, ?_⟩
    · rw [e_una]; exact haM
    · rw [e_nxt]; exact w2
    · rw [hrcv']; exact seqAdd_lt_m32 _ _
    · rw [e_rw]; exact w7
    · rw [e_dn]
      unfold HALF at *
      omega
    · rw [e_ret, e_dn, e_una]
      exact popAcked_endsOk hq hdn hda0 hdale
  · rw [hc]; exact hInv'
  · -- duplicate acknowledgement: fall through to finish unchanged
    obtain ⟨_, _, _, _, hret', hu', hn', hrcv', hrw', hwnd', hwl1', hwl2'⟩ :=
      accept_finish_spec hwfn hfin
    have e_wnd : c'.tcb.snd_wnd < 65536 := by
      rcases hwnd' with h | h
      · rw [h]; exact w3
      · rw [h]; exact hwseg.2.1
    have e_wl1 : c'.tcb.snd_wl1 < M32 := by
      rcases hwl1' with h | h
      · rw [h]; exact w4
      · rw [h]; exact hwseg.1
    have e_wl2 : c'.tcb.snd_wl2 < M32 := by
      rcases hwl2' with h | h
      · rw [h]; exact w5
      · rw [h]; exact haM
    refine ⟨⟨?_, ?_, e_wnd, e_wl1, e_wl2, ?_, ?_⟩, ?_, ?_⟩
    · rw [hu']; exact w1
    · rw [hn']; exact w2
    · rw [hrcv']; exact seqAdd_lt_m32 _ _
    · rw [hrw']; exact w7
    · rw [hn', hu']; exact hdn
    · rw [hret', hn', hu']; exact hq

theorem inv_queue_unacked (c : Conn) (hInv : Inv c) :
    ∀ e ∈ c.retransmission,
      seqGt (endSeq e) c.tcb.snd_una = true ∧ e.control = TcpControl.None := by
  obtain ⟨_, hdn, hq⟩ := hInv
  intro e he
  obtain ⟨g1, g2, g3⟩ := endsOk_mem hq e he
  exact ⟨seqGt_of_coord g1 (lt_of_le_of_lt g2 hdn), g3⟩

theorem inv_popAcked_filter (c : Conn) (a : Nat) (hInv : Inv c)
    (hda0 : 0 < seqDiff a c.tcb.snd_una)
    (hdale : seqDiff a c.tcb.snd_una ≤ seqDiff c.tcb.snd_nxt c.tcb.snd_una) :
    popAcked c.retransmission a =
      c.retransmission.filter (fun e => seqGt (endSeq e) a) := by
  obtain ⟨_, hdn, hq⟩ := hInv
  exact popAcked_filter hq hdn hda0 (lt_of_le_of_lt hdale hdn)

/-! Claims. -/

/-- Claim C1: the segment acceptance test `is_seg_acceptable` agrees
exactly with the RFC 9293 section 3.10.7.4 rule as worded in the spec,
with all comparisons taken modulo `2^32`, provided the receive window
fits in half the sequence space (it is a 16-bit field). -/
theorem c1_acceptance_matches_rfc9293 (tcb : Tcb) (seg : TcpRepr)
    (hw : tcb.rcv_wnd < HALF) :
    is_seg_acceptable tcb seg = true ↔ spec_seg_acceptable tcb seg := by
  by_cases hlen : seg.segment_len = 0 <;> by_cases hwnd : tcb.rcv_wnd = 0
  · simp [is_seg_acceptable, spec_seg_acceptable, hlen, hwnd, seqEq_iff]
  · have hw0 : 0 < tcb.rcv_wnd := Nat.pos_of_ne_zero hwnd
    have hbw : (tcb.rcv_wnd == 0) = false := by simpa using hwnd
    simp only [is_seg_acceptable, spec_seg_acceptable, spec_in_window, hlen, hwnd,
      beq_self_eq_true, if_true, hbw, Bool.false_eq_true, if_false, Bool.and_eq_true]
    exact window_check hw0 hw
  · simp [is_seg_acceptable, spec_seg_acceptable, hlen, hwnd]
  · have hw0 : 0 < tcb.rcv_wnd := Nat.pos_of_ne_zero hwnd
    simp only [is_seg_acceptable, spec_seg_acceptable, spec_in_window, hlen, hwnd,
      if_neg hlen, if_neg hwnd, Bool.or_eq_true, Bool.and_eq_true]
    have hb : (seg.segment_len == 0) = false := by simpa using hlen
    have hbw : (tcb.rcv_wnd == 0) = false := by simpa using hwnd
    simp only [hb, hbw, Bool.false_eq_true, if_false, Bool.or_eq_true, Bool.and_eq_true]
    rw [window_check hw0 hw, window_check hw0 hw]

/-- Witness for claim C1 at the sample established connection and its
in-window data segment. -/
theorem c1_witness :
    estConn.tcb.rcv_wnd < HALF ∧
      (is_seg_acceptable estConn.tcb dataSeg = true ↔
        spec_seg_acceptable estConn.tcb dataSeg) :=
  ⟨by decide, c1_acceptance_matches_rfc9293 estConn.tcb dataSeg (by decide)⟩

/-- Claim C5: a window-acceptable segment whose sequence number lies
beyond `rcv_nxt` is classified `Acceptable`, but its payload is dropped,
no response is emitted and the connection object (TCB and retransmission
queue included) is returned unchanged. -/
theorem c5_gap_segment_dropped (c : Conn) (seg : TcpRepr)
    (hacc : is_seg_acceptable c.tcb seg = true)
    (hgap : seqGt seg.seq_number c.tcb.rcv_nxt = true) :
    accept c seg = some (c, ReactionInner.Acceptable none none) := by
  simp [accept, hacc, hgap]

/-- Witness for claim C5: an in-window segment 499 octets past
`rcv_nxt`. -/
theorem c5_witness :
    is_seg_acceptable estConn.tcb gapSeg = true ∧
      seqGt gapSeg.seq_number estConn.tcb.rcv_nxt = true ∧
      accept estConn gapSeg = some (estConn, ReactionInner.Acceptable none none) :=
  ⟨by decide, by decide, c5_gap_segment_dropped estConn gapSeg (by decide) (by decide)⟩

/-- Claim C9: whenever `accept` returns `NotAcceptable`, the call is
atomic: the connection object (every TCB field and the retransmission
queue) is returned unchanged, and the response it may carry is exactly
the empty challenge ACK, which consumes no sequence space. -/
theorem c9_notacceptable_atomic (c c' : Conn) (seg : TcpRepr) (resp : Option TcpRepr)
    (hwf : c.tcb.snd_nxt < M32)
    (h : accept c seg = some (c', ReactionInner.NotAcceptable resp)) :
    c' = c ∧ (resp = none ∨ resp = some (challenge_ack c)) := by
  rcases accept_spec hwf h with
    ⟨_, _, hc, hr⟩ | ⟨_, _, hc, hr⟩ | ⟨_, _, _, hr⟩ | ⟨idx, _, _, _, hbr⟩
  · injection hr with hr'
    exact ⟨hc, Or.inl hr'⟩
  · injection hr with hr'
    exact ⟨hc, Or.inr hr'⟩
  · exact ReactionInner.noConfusion hr
  · rcases hbr with ⟨_, _, hc, hr⟩ | ⟨_, _, hc, hr⟩ | ⟨_, _, hc, hr⟩ |
      ⟨_, _, _, hc, hr⟩ | ⟨a, _, _, _, hwa⟩
    · exact ReactionInner.noConfusion hr
    · injection hr with hr'
      exact ⟨hc, Or.inr hr'⟩
    · injection hr with hr'
      exact ⟨hc, Or.inr hr'⟩
    · injection hr with hr'
      exact ⟨hc, Or.inl hr'⟩
    · rcases accept_with_ack_spec hwf hwa with
        ⟨_, _, _, hr⟩ | ⟨_, c0, _, hu, hn, _, _, _, _, _, _, hfin⟩ |
        ⟨_, _, hc, hr⟩ | ⟨_, _, hfin⟩
      · exact ReactionInner.noConfusion hr
      · have hwf0 : ({ c0 with
            tcb := { c0.tcb with snd_una := a }
            retransmission := popAcked c0.retransmission a } : Conn).tcb.snd_nxt < M32 := by
          show c0.tcb.snd_nxt < M32
          rw [hn]
          exact hwf
        obtain ⟨⟨resp', hr', _⟩, _⟩ := accept_finish_spec hwf0 hfin
        exact ReactionInner.noConfusion hr'
      · exact ⟨hc, Or.inr (by injection hr)⟩
      · obtain ⟨⟨resp', hr', _⟩, _⟩ := accept_finish_spec hwf hfin
        exact ReactionInner.noConfusion hr'

/-- Witness for claim C9: a stale data segment below the window elicits
a challenge ACK and leaves the connection untouched. -/
theorem c9_witness :
    estConn.tcb.snd_nxt < M32 ∧
    accept estConn oldSeg =
      some (estConn, ReactionInner.NotAcceptable (some (challenge_ack estConn))) ∧
    (estConn = estConn ∧
      (some (challenge_ack estConn) = none ∨
        some (challenge_ack estConn) = some (challenge_ack estConn))) :=
  ⟨by decide, by decide,
    c9_notacceptable_atomic estConn estConn oldSeg _ (by decide) (by decide)⟩

/-- Claim C10: pre-classification never perturbs the engine and always
agrees with it.  `for_picker` is a pure copy of the connection object,
`acceptable` runs the same deterministic `accept` the engine will run,
and therefore the branch the picker chooses matches the reaction of the
engine's subsequent receive call on the same segment, for every target
state of the receive wrapper. -/
theorem c10_picker_agreement (c : Conn) (target : TcpState) (seg : TcpRepr) :
    for_picker c = TcpForPicker.mk c ∧
    (for_picker c).acceptable seg = accept c seg ∧
    ((for_picker c).acceptable seg).map (fun p => p.2.kind) =
      (recv c target seg).map Reaction.kind := by
  refine ⟨rfl, rfl, ?_⟩
  unfold TcpForPicker.acceptable for_picker recv
  cases h : accept c seg with
  | none => rfl
  | some p =>
    obtain ⟨c1, r⟩ := p
    cases r <;> rfl

/-- Counterexample to claim C3 as stated: a window-acceptable ACK
segment whose sequence number lies beyond `rcv_nxt` and whose
acknowledgement number is beyond `snd_nxt` is swallowed by the
gap-before-segment branch with no challenge ACK at all, because the gap
check runs before ACK processing. -/
theorem c3_counterexample :
    gapSeg.ack_number = some 200 ∧
    seqGt 200 estConn.tcb.snd_nxt = true ∧
    is_seg_acceptable estConn.tcb gapSeg = true ∧
    seqGt gapSeg.seq_number estConn.tcb.rcv_nxt = true ∧
    accept estConn gapSeg = some (estConn, ReactionInner.Acceptable none none) := by
  decide

/-- Claim C3 as amended: for every non-RST, non-SYN segment carrying an
acknowledgement beyond `snd_nxt`: in a synchronized state other than
SynRcvd, `accept` emits exactly one challenge ACK and returns the
connection unchanged, both for every window-unacceptable segment
(wherever its sequence number lies) and for every window-acceptable
segment that is not swallowed by the gap branch (its sequence number
not beyond `rcv_nxt`, with the clipping subtraction defined); in
SynRcvd, a window-acceptable non-gap such segment triggers a RST at the
acknowledgement number instead; and a window-acceptable segment whose
sequence number lies beyond `rcv_nxt` is dropped as `Acceptable` with
no response at all. -/
theorem c3_amended :
    (∀ (c : Conn) (seg : TcpRepr) (a : Nat),
      c.tcb.snd_nxt < M32 →
      c.state ≠ TcpState.SynRcvd →
      seg.control ≠ TcpControl.Rst →
      seg.control ≠ TcpControl.Syn →
      seg.ack_number = some a →
      seqGt a c.tcb.snd_nxt = true →
      (is_seg_acceptable c.tcb seg = true →
        seqGt seg.seq_number c.tcb.rcv_nxt = false ∧
        seqSub c.tcb.rcv_nxt seg.seq_number =
          some (seqDiff c.tcb.rcv_nxt seg.seq_number)) →
      accept c seg = some (c, ReactionInner.NotAcceptable (some (challenge_ack c)))) ∧
    (∀ (c : Conn) (seg : TcpRepr) (a : Nat),
      c.state = TcpState.SynRcvd →
      seg.control ≠ TcpControl.Rst →
      seg.control ≠ TcpControl.Syn →
      seg.ack_number = some a →
      seqGt a c.tcb.snd_nxt = true →
      is_seg_acceptable c.tcb seg = true →
      seqGt seg.seq_number c.tcb.rcv_nxt = false →
      seqSub c.tcb.rcv_nxt seg.seq_number =
        some (seqDiff c.tcb.rcv_nxt seg.seq_number) →
      accept c seg = some (c, ReactionInner.Reset (some (build_reset c a)))) ∧
    (∀ (c : Conn) (seg : TcpRepr),
      is_seg_acceptable c.tcb seg = true →
      seqGt seg.seq_number c.tcb.rcv_nxt = true →
      accept c seg = some (c, ReactionInner.Acceptable none none)) := by
  refine ⟨?_, ?_, ?_⟩
  · intro c seg a hwf hstate hrst hsyn hack hgt hcond
    have hle : seqLe a c.tcb.snd_nxt = false := by
      have h := hgt
      unfold seqGt at h
      simpa using h
    have hg : (seqLt c.tcb.snd_una a && seqLe a c.tcb.snd_nxt) = false := by
      simp [hle]
    by_cases hacc : is_seg_acceptable c.tcb seg = true
    · obtain ⟨hgap, hsub⟩ := hcond hacc
      unfold accept
      rw [hacc]
      simp only [Bool.not_true, Bool.false_eq_true, if_false]
      rw [hgap]
      simp only [Bool.false_eq_true, if_false]
      rw [hsub]
      simp only []
      rw [if_neg hrst, if_neg hsyn, hack]
      simp only []
      unfold accept_with_ack
      rw [if_neg hstate]
      unfold accept_ack
      rw [if_neg (by rw [hg]; exact Bool.false_ne_true), if_pos hgt, build_ack_nil hwf]
    · unfold accept
      rw [Bool.not_eq_true] at hacc
      rw [hacc]
      simp only [Bool.not_false, if_true]
      rw [if_neg hrst, build_ack_nil hwf]
  · intro c seg a hstate hrst hsyn hack hgt hacc hgap hsub
    have hle : seqLe a c.tcb.snd_nxt = false := by
      have h := hgt
      unfold seqGt at h
      simpa using h
    have hg : (seqLt c.tcb.snd_una a && seqLe a c.tcb.snd_nxt) = false := by
      simp [hle]
    unfold accept
    rw [hacc]
    simp only [Bool.not_true, Bool.false_eq_true, if_false]
    rw [hgap]
    simp only [Bool.false_eq_true, if_false]
    rw [hsub]
    simp only []
    rw [if_neg hrst, if_neg hsyn, hack]
    simp only []
    unfold accept_with_ack
    rw [if_pos hstate]
    rw [if_neg (by rw [hg]; exact Bool.false_ne_true)]
  · intro c seg hacc hgap
    simp [accept, hacc, hgap]

/-- Witness for the amended claim C3, exercising both contested cases:
the out-of-window probe of scenario S3 (sequence number far beyond the
window) draws exactly one challenge ACK with the connection unchanged,
and in SynRcvd an in-window ACK acking unsent sequence space draws a
RST. -/
theorem c3_witness :
    (estConn.tcb.snd_nxt < M32 ∧
      estConn.state ≠ TcpState.SynRcvd ∧
      probeSeg.control ≠ TcpControl.Rst ∧
      probeSeg.control ≠ TcpControl.Syn ∧
      probeSeg.ack_number = some 200 ∧
      seqGt 200 estConn.tcb.snd_nxt = true ∧
      is_seg_acceptable estConn.tcb probeSeg = false ∧
      accept estConn probeSeg =
        some (estConn, ReactionInner.NotAcceptable (some (challenge_ack estConn)))) ∧
    (synRcvdConn.state = TcpState.SynRcvd ∧
      bigAckSeg.control ≠ TcpControl.Rst ∧
      bigAckSeg.control ≠ TcpControl.Syn ∧
      bigAckSeg.ack_number = some 200 ∧
      seqGt 200 synRcvdConn.tcb.snd_nxt = true ∧
      is_seg_acceptable synRcvdConn.tcb bigAckSeg = true ∧
      seqGt bigAckSeg.seq_number synRcvdConn.tcb.rcv_nxt = false ∧
      accept synRcvdConn bigAckSeg =
        some (synRcvdConn, ReactionInner.Reset (some (build_reset synRcvdConn 200)))) :=
  ⟨⟨by decide, by decide, by decide, by decide, by decide, by decide, by decide,
     c3_amended.1 estConn probeSeg 200 (by decide) (by decide) (by decide) (by decide)
       (by decide) (by decide) (by decide)⟩,
   ⟨by decide, by decide, by decide, by decide, by decide, by decide, by decide,
     c3_amended.2.1 synRcvdConn bigAckSeg 200 (by decide) (by decide) (by decide)
       (by decide) (by decide) (by decide) (by decide) (by decide)⟩⟩

/-- Counterexample to claim C8 as stated: re-delivering a fully
acknowledged data segment (its whole span lies before `rcv_nxt`) leaves
the state unchanged but does produce a response, namely a challenge
ACK, because an old segment fails the window acceptance test. -/
theorem c8_counterexample :
    seqLe (seqAdd oldSeg.seq_number oldSeg.segment_len) estConn.tcb.rcv_nxt = true ∧
    accept estConn oldSeg =
      some (estConn, ReactionInner.NotAcceptable (some (challenge_ack estConn))) := by
  decide

/-- Claim C8 as amended: re-delivery of an already-acknowledged segment
(whole span strictly before `rcv_nxt`, within half the sequence space)
produces no state change, and the response is exactly one challenge ACK
for non-RST segments and nothing for RST segments. -/
theorem c8_amended (c : Conn) (seg : TcpRepr)
    (hwf : c.tcb.snd_nxt < M32)
    (hb0 : 0 < seqDiff c.tcb.rcv_nxt seg.seq_number)
    (hbh : seqDiff c.tcb.rcv_nxt seg.seq_number < HALF)
    (hlen : seg.segment_len ≤ seqDiff c.tcb.rcv_nxt seg.seq_number) :
    accept c seg = some (c,
      if seg.control = TcpControl.Rst then ReactionInner.NotAcceptable none
      else ReactionInner.NotAcceptable (some (challenge_ack c))) := by
  have hacc := old_span_not_acceptable c.tcb seg hb0 hbh hlen
  unfold accept
  rw [hacc]
  simp only [Bool.not_false, if_true]
  by_cases hrst : seg.control = TcpControl.Rst
  · rw [if_pos hrst, if_pos hrst]
  · rw [if_neg hrst, if_neg hrst, build_ack_nil hwf]

/-- Witness for the amended claim C8 at a stale three-byte data
segment one hundred octets below the window. -/
theorem c8_witness :
    estConn.tcb.snd_nxt < M32 ∧
    0 < seqDiff estConn.tcb.rcv_nxt oldSeg.seq_number ∧
    seqDiff estConn.tcb.rcv_nxt oldSeg.seq_number < HALF ∧
    oldSeg.segment_len ≤ seqDiff estConn.tcb.rcv_nxt oldSeg.seq_number ∧
    accept estConn oldSeg = some (estConn,
      if oldSeg.control = TcpControl.Rst then ReactionInner.NotAcceptable none
      else ReactionInner.NotAcceptable (some (challenge_ack estConn))) :=
  ⟨by decide, by decide, by decide, by decide,
    c8_amended estConn oldSeg (by decide) (by decide) (by decide) (by decide)⟩

/-- Claim C2: for every ACK-carrying segment that `accept` processes
successfully (window-acceptable, not a gap segment, not RST/SYN, with
the payload-clipping subtraction defined, not diverted to a SYN-RECEIVED
reset or to a challenge ACK), afterwards `rcv_nxt` equals
`seq + seg.len`, a response ACK is produced iff the segment consumed
sequence space, and the payload handed upward is exactly the suffix of
the segment payload from `rcv_nxt_before - seg.seq`, reported as `none`
when that suffix is empty. -/
theorem c2_ack_success_post (c : Conn) (seg : TcpRepr) (a idx : Nat)
    (hwf : c.tcb.snd_nxt < M32)
    (hacc : is_seg_acceptable c.tcb seg = true)
    (hgap : seqGt seg.seq_number c.tcb.rcv_nxt = false)
    (hrst : seg.control ≠ TcpControl.Rst)
    (hsyn : seg.control ≠ TcpControl.Syn)
    (hack : seg.ack_number = some a)
    (hsub : seqSub c.tcb.rcv_nxt seg.seq_number = some idx)
    (hsr : c.state = TcpState.SynRcvd →
      (seqLt c.tcb.snd_una a && seqLe a c.tcb.snd_nxt) = true)
    (hchal : seqGt a c.tcb.snd_nxt = false) :
    ∃ c' resp,
      accept c seg = some (c', ReactionInner.Acceptable resp
        (if 0 < (seg.payload.drop idx).length then some (seg.payload.drop idx) else none)) ∧
      c'.tcb.rcv_nxt = seqAdd seg.seq_number seg.segment_len ∧
      (resp.isSome ↔ 0 < seg.segment_len) := by
  have hclip : (if idx ≤ seg.payload.length then seg.payload.drop idx else []) =
      seg.payload.drop idx := by
    split
    · rfl
    · exact (List.drop_eq_nil_of_le (by omega)).symm
  have hstep : accept c seg =
      some (accept_with_ack c seg a (seg.payload.drop idx)) := by
    unfold accept
    rw [hacc]
    simp only [Bool.not_true, Bool.false_eq_true, if_false]
    rw [hgap]
    simp only [Bool.false_eq_true, if_false]
    rw [hsub]
    simp only []
    rw [if_neg hrst, if_neg hsyn, hack]
    simp only []
    rw [hclip]
  rcases hp : accept_with_ack c seg a (seg.payload.drop idx) with ⟨c', r⟩
  rcases accept_with_ack_spec hwf hp with
    ⟨hs, hgf, _, _⟩ | ⟨hg, c0, hc0, hu, hn, _, _, _, _, _, _, hfin⟩ |
    ⟨_, hgt, _, _⟩ | ⟨_, _, hfin⟩
  · rw [hsr hs] at hgf
    exact absurd hgf (by simp)
  · have hwf0 : ({ c0 with
        tcb := { c0.tcb with snd_una := a }
        retransmission := popAcked c0.retransmission a } : Conn).tcb.snd_nxt < M32 := by
      show c0.tcb.snd_nxt < M32
      rw [hn]
      exact hwf
    obtain ⟨⟨resp, hr, hsome⟩, _, _, _, _, _, _, hrcv, _⟩ := accept_finish_spec hwf0 hfin
    refine ⟨c', resp, ?_, hrcv, hsome⟩
    rw [hstep, hp, hr]
  · rw [hgt] at hchal
    exact absurd hchal (by simp)
  · obtain ⟨⟨resp, hr, hsome⟩, _, _, _, _, _, _, hrcv, _⟩ := accept_finish_spec hwf hfin
    refine ⟨c', resp, ?_, hrcv, hsome⟩
    rw [hstep, hp, hr]

/-- Witness for claim C2: the three-byte in-window data segment of
scenario S2 at the sample established connection. -/
theorem c2_witness :
    estConn.tcb.snd_nxt < M32 ∧
    is_seg_acceptable estConn.tcb dataSeg = true ∧
    seqGt dataSeg.seq_number estConn.tcb.rcv_nxt = false ∧
    dataSeg.control ≠ TcpControl.Rst ∧
    dataSeg.control ≠ TcpControl.Syn ∧
    dataSeg.ack_number = some 124 ∧
    seqSub estConn.tcb.rcv_nxt dataSeg.seq_number = some 0 ∧
    (estConn.state = TcpState.SynRcvd →
      (seqLt estConn.tcb.snd_una 124 && seqLe 124 estConn.tcb.snd_nxt) = true) ∧
    seqGt 124 estConn.tcb.snd_nxt = false ∧
    ∃ c' resp,
      accept estConn dataSeg = some (c', ReactionInner.Acceptable resp
        (if 0 < (dataSeg.payload.drop 0).length then some (dataSeg.payload.drop 0) else none)) ∧
      c'.tcb.rcv_nxt = seqAdd dataSeg.seq_number dataSeg.segment_len ∧
      (resp.isSome ↔ 0 < dataSeg.segment_len) :=
  ⟨by decide, by decide, by decide, by decide, by decide, by decide, by decide,
    by decide, by decide,
    c2_ack_success_post estConn dataSeg 124 0 (by decide) (by decide) (by decide)
      (by decide) (by decide) (by decide) (by decide) (by decide) (by decide)⟩

/-- Counterexample to claim C6 as stated: a SYN carrying one payload
byte passes the Listen filter (which checks only the flags), yet
`recv_syn` initialises `rcv_nxt` to `seq + 2`, not `seq + 1`, because it
uses the SYN's full segment length. -/
theorem c6_counterexample :
    synPayloadSeg.control = TcpControl.Syn ∧
    (recv_syn sampleLocal synPayloadSeg).1.tcb.rcv_nxt = 1002 ∧
    (recv_syn sampleLocal synPayloadSeg).1.tcb.rcv_nxt ≠
      seqAdd synPayloadSeg.seq_number 1 := by
  decide

/-- Claim C6 as amended: for every SYN segment with sequence number `s`
and window `w` accepted in Listen, `recv_syn` initialises the TCB with
`rcv_nxt = s + 1 + payload length` (which is `s + 1` for a payload-free
SYN), `rcv_wnd = 1000`, `snd_una = iss`, `snd_wnd = w`, `snd_wl1 = s`,
`snd_wl2 = iss` with `iss = 123`, emits a SYN|ACK with `seq = iss`,
`ack = rcv_nxt`, `wnd = rcv_wnd`, and leaves `snd_nxt = iss + 1 = 124`
after that emission. -/
theorem c6_amended (l : LocalAddr) (seg : TcpRepr)
    (hsyn : seg.control = TcpControl.Syn) :
    (recv_syn l seg).1.tcb.rcv_nxt = seqAdd seg.seq_number (seg.payload.length + 1) ∧
    (recv_syn l seg).1.tcb.rcv_wnd = 1000 ∧
    (recv_syn l seg).1.tcb.snd_una = 123 ∧
    (recv_syn l seg).1.tcb.snd_wnd = seg.window_len ∧
    (recv_syn l seg).1.tcb.snd_wl1 = seg.seq_number ∧
    (recv_syn l seg).1.tcb.snd_wl2 = 123 ∧
    (recv_syn l seg).1.tcb.snd_nxt = 124 ∧
    (recv_syn l seg).1.state = TcpState.SynRcvd ∧
    (recv_syn l seg).1.retransmission = [] ∧
    (recv_syn l seg).2.control = TcpControl.Syn ∧
    (recv_syn l seg).2.seq_number = 123 ∧
    (recv_syn l seg).2.ack_number = some (seqAdd seg.seq_number (seg.payload.length + 1)) ∧
    (recv_syn l seg).2.window_len = 1000 := by
  have hl : seg.segment_len = seg.payload.length + 1 := by
    unfold TcpRepr.segment_len TcpControl.len
    rw [hsyn]
  unfold recv_syn
  simp only [hl]
  refine ⟨?_, ?_, ?_, ?_, ?_, ?_, ?_, ?_, ?_, ?_, ?_, ?_, ?_⟩ <;>
    first
    | rfl
    | trivial

/-- Witness for the amended claim C6 at the pure SYN of scenario S1. -/
theorem c6_witness :
    synSeg.control = TcpControl.Syn ∧
    ((recv_syn sampleLocal synSeg).1.tcb.rcv_nxt =
        seqAdd synSeg.seq_number (synSeg.payload.length + 1) ∧
      (recv_syn sampleLocal synSeg).1.tcb.rcv_wnd = 1000 ∧
      (recv_syn sampleLocal synSeg).1.tcb.snd_una = 123 ∧
      (recv_syn sampleLocal synSeg).1.tcb.snd_wnd = synSeg.window_len ∧
      (recv_syn sampleLocal synSeg).1.tcb.snd_wl1 = synSeg.seq_number ∧
      (recv_syn sampleLocal synSeg).1.tcb.snd_wl2 = 123 ∧
      (recv_syn sampleLocal synSeg).1.tcb.snd_nxt = 124 ∧
      (recv_syn sampleLocal synSeg).1.state = TcpState.SynRcvd ∧
      (recv_syn sampleLocal synSeg).1.retransmission = [] ∧
      (recv_syn sampleLocal synSeg).2.control = TcpControl.Syn ∧
      (recv_syn sampleLocal synSeg).2.seq_number = 123 ∧
      (recv_syn sampleLocal synSeg).2.ack_number =
        some (seqAdd synSeg.seq_number (synSeg.payload.length + 1)) ∧
      (recv_syn sampleLocal synSeg).2.window_len = 1000) :=
  ⟨by decide, c6_amended sampleLocal synSeg (by decide)⟩

/-- Counterexample to claim C4 as stated: `send` does not preserve
`snd_una <= snd_nxt` unconditionally.  Two consecutive sends of `2^30`
and `2^30 + 1` bytes from a fully acknowledged state — each payload
below `2^31`, so each smoltcp sequence-number increment stays in its
non-panicking range, and the first send still satisfies the invariant —
accumulate `2^31 + 1` unacknowledged bytes and wrap `snd_nxt` past the
modular ordering. -/
theorem c4_counterexample :
    seqLe estConn.tcb.snd_una estConn.tcb.snd_nxt = true ∧
    (List.replicate (2 ^ 30) (0 : Nat)).length < HALF ∧
    (List.replicate (2 ^ 30 + 1) (0 : Nat)).length < HALF ∧
    seqLe (send estConn (List.replicate (2 ^ 30) 0)).1.tcb.snd_una
      (send estConn (List.replicate (2 ^ 30) 0)).1.tcb.snd_nxt = true ∧
    seqLe (send (send estConn (List.replicate (2 ^ 30) 0)).1
        (List.replicate (2 ^ 30 + 1) 0)).1.tcb.snd_una
      (send (send estConn (List.replicate (2 ^ 30) 0)).1
        (List.replicate (2 ^ 30 + 1) 0)).1.tcb.snd_nxt = false := by
  refine ⟨by decide, ?_, ?_, ?_, ?_⟩
  · rw [List.length_replicate]
    decide
  · rw [List.length_replicate]
    decide
  · rw [send_fst_tcb_snd_una, send_fst_tcb_snd_nxt, List.length_replicate]
    decide
  · rw [send_fst_tcb_snd_una, send_fst_tcb_snd_una, send_fst_tcb_snd_nxt,
      send_fst_tcb_snd_nxt, List.length_replicate, List.length_replicate]
    decide

/-- Claim C4 as amended: `snd_una <= snd_nxt` under the modular
ordering is established by `recv_syn`, preserved unconditionally by
every `accept` call, and preserved by `send`, `close` and
`build_ack_raw` (hence `build_ack` and `build_fin`) provided the
emitted segment's sequence-space length stays below half the sequence
space (inside smoltcp's non-panicking increment range, where this
embedding is faithful) and the unacknowledged span `snd_nxt - snd_una`
plus that length stays at or below half the sequence space. -/
theorem c4_amended :
    (∀ (l : LocalAddr) (seg : TcpRepr),
      seqLe (recv_syn l seg).1.tcb.snd_una (recv_syn l seg).1.tcb.snd_nxt = true) ∧
    (∀ (c c' : Conn) (seg : TcpRepr) (r : ReactionInner),
      c.tcb.snd_nxt < M32 →
      seqLe c.tcb.snd_una c.tcb.snd_nxt = true →
      accept c seg = some (c', r) →
      seqLe c'.tcb.snd_una c'.tcb.snd_nxt = true) ∧
    (∀ (c : Conn) (data : List Nat),
      data.length < HALF →
      seqDiff c.tcb.snd_nxt c.tcb.snd_una + data.length ≤ HALF →
      seqLe (send c data).1.tcb.snd_una (send c data).1.tcb.snd_nxt = true) ∧
    (∀ (c : Conn) (target : TcpState),
      seqDiff c.tcb.snd_nxt c.tcb.snd_una + 1 ≤ HALF →
      seqLe (close c target).1.tcb.snd_una (close c target).1.tcb.snd_nxt = true) ∧
    (∀ (c : Conn) (payload : List Nat) (fin : Bool),
      payload.length + 1 < HALF →
      seqDiff c.tcb.snd_nxt c.tcb.snd_una + payload.length + 1 ≤ HALF →
      seqLe (build_ack_raw c payload fin).1.tcb.snd_una
        (build_ack_raw c payload fin).1.tcb.snd_nxt = true) := by
  have h1 : ∀ (l : LocalAddr) (seg : TcpRepr),
      seqLe (recv_syn l seg).1.tcb.snd_una (recv_syn l seg).1.tcb.snd_nxt = true := by
    intro l seg
    show seqLe 123 (seqAdd 123 1) = true
    decide
  refine ⟨h1, ?_, ?_, ?_, ?_⟩
  · intro c c' seg r hwf hle heq
    rcases accept_spec hwf heq with
      ⟨_, _, hc, _⟩ | ⟨_, _, hc, _⟩ | ⟨_, _, hc, _⟩ | ⟨idx, _, _, _, hbr⟩
    · rw [hc]; exact hle
    · rw [hc]; exact hle
    · rw [hc]; exact hle
    · rcases hbr with ⟨_, _, hc, _⟩ | ⟨_, _, hc, _⟩ | ⟨_, _, hc, _⟩ |
        ⟨_, _, _, hc, _⟩ | ⟨a, _, _, _, hwa⟩
      · rw [hc]; exact hle
      · rw [hc]; exact hle
      · rw [hc]; exact hle
      · rw [hc]; exact hle
      · rcases accept_with_ack_spec hwf hwa with
          ⟨_, _, hc, _⟩ | ⟨hg, c0, _, hu0, hn0, _, _, _, _, _, _, hfin⟩ |
          ⟨_, _, hc, _⟩ | ⟨_, _, hfin⟩
        · rw [hc]; exact hle
        · have hwf0 : ({ c0 with
              tcb := { c0.tcb with snd_una := a }
              retransmission := popAcked c0.retransmission a } : Conn).tcb.snd_nxt < M32 := by
            show c0.tcb.snd_nxt < M32
            rw [hn0]
            exact hwf
          obtain ⟨_, _, _, _, _, hu', hn', _, _, _, _, _⟩ := accept_finish_spec hwf0 hfin
          rw [hu', hn']
          show seqLe a c0.tcb.snd_nxt = true
          rw [hn0]
          rw [Bool.and_eq_true] at hg
          exact hg.2
        · rw [hc]; exact hle
        · obtain ⟨_, _, _, _, _, hu', hn', _, _, _, _, _⟩ := accept_finish_spec hwf hfin
          rw [hu', hn']
          exact hle
  · intro c data _hlen hbound
    show seqLe c.tcb.snd_una (seqAdd c.tcb.snd_nxt (data.length + 0)) = true
    exact seqLe_seqAdd_of_bound _ (by omega)
  · intro c target hbound
    show seqLe c.tcb.snd_una (seqAdd c.tcb.snd_nxt (0 + 1)) = true
    exact seqLe_seqAdd_of_bound _ (by omega)
  · intro c payload fin _hlen hbound
    cases fin
    · show seqLe c.tcb.snd_una (seqAdd c.tcb.snd_nxt (payload.length + 0)) = true
      exact seqLe_seqAdd_of_bound _ (by omega)
    · show seqLe c.tcb.snd_una (seqAdd c.tcb.snd_nxt (payload.length + 1)) = true
      exact seqLe_seqAdd_of_bound _ (by omega)

/-- Witness for the amended claim C4: sending three bytes from the
sample established connection keeps `snd_una <= snd_nxt`. -/
theorem c4_witness :
    ([1, 2, 3] : List Nat).length < HALF ∧
    seqDiff estConn.tcb.snd_nxt estConn.tcb.snd_una + ([1, 2, 3] : List Nat).length ≤ HALF ∧
    seqLe (send estConn [1, 2, 3]).1.tcb.snd_una
      (send estConn [1, 2, 3]).1.tcb.snd_nxt = true :=
  ⟨by decide, by decide, c4_amended.2.2.1 estConn [1, 2, 3] (by decide) (by decide)⟩

/-- Counterexample to claim C7 as stated: `send` enqueues its segment
unconditionally, so sending an empty payload puts an empty ACK on the
retransmission queue, and that segment violates `seq + len > snd_una`
(its end equals `snd_una` when nothing is in flight). -/
theorem c7_counterexample :
    (send estConn []).1.retransmission = [challenge_ack estConn] ∧
    (challenge_ack estConn).segment_len = 0 ∧
    seqGt (endSeq (challenge_ack estConn)) (send estConn []).1.tcb.snd_una = false := by
  decide

/-- Claim C7 as amended: provided `send` is only given nonempty
payloads and the in-flight span `snd_nxt - snd_una` (plus what a call
adds) stays below half the sequence space, and no acknowledgement lands
exactly antipodal to `snd_una`, the engine invariant `Inv` holds: it is
established by `recv_syn` and preserved by `accept`, `send`, `close`
and the CloseWait `send`; under `Inv` every queued segment satisfies
`seq + len > snd_una` under the modular order and is a plain data ACK
(never a SYN, FIN or — given the nonempty-payload proviso — an empty
ACK), and the pop loop of `accept` removes exactly the segments whose
`seq + len` the newly accepted acknowledgement has passed. -/
theorem c7_amended :
    (∀ (l : LocalAddr) (seg : TcpRepr), seg.wf → Inv (recv_syn l seg).1) ∧
    (∀ (c c' : Conn) (seg : TcpRepr) (r : ReactionInner),
      Inv c → seg.wf →
      (∀ a, seg.ack_number = some a → seqDiff a c.tcb.snd_una ≠ HALF) →
      accept c seg = some (c', r) → Inv c') ∧
    (∀ (c : Conn) (data : List Nat),
      Inv c → 0 < data.length →
      seqDiff c.tcb.snd_nxt c.tcb.snd_una + data.length < HALF →
      Inv (send c data).1) ∧
    (∀ (c : Conn) (target : TcpState),
      Inv c → seqDiff c.tcb.snd_nxt c.tcb.snd_una + 1 < HALF →
      Inv (close c target).1) ∧
    (∀ (c : Conn) (data : List Nat),
      Inv c → seqDiff c.tcb.snd_nxt c.tcb.snd_una + data.length < HALF →
      Inv (send_cw c data).1) ∧
    (∀ c : Conn, Inv c → ∀ e ∈ c.retransmission,
      seqGt (endSeq e) c.tcb.snd_una = true ∧ e.control = TcpControl.None) ∧
    (∀ (c : Conn) (a : Nat),
      Inv c → 0 < seqDiff a c.tcb.snd_una →
      seqDiff a c.tcb.snd_una ≤ seqDiff c.tcb.snd_nxt c.tcb.snd_una →
      popAcked c.retransmission a =
        c.retransmission.filter (fun e => seqGt (endSeq e) a)) :=
  ⟨recv_syn_inv, accept_inv, send_inv, close_inv, send_cw_inv,
    inv_queue_unacked, inv_popAcked_filter⟩

/-- Witness for the amended claim C7: the invariant holds after the
handshake SYN, survives a three-byte send, and the queued segment is an
unacknowledged data ACK. -/
theorem c7_witness :
    synSeg.wf ∧
    Inv (recv_syn sampleLocal synSeg).1 ∧
    (Inv estConn ∧ 0 < ([104, 105, 10] : List Nat).length ∧
      seqDiff estConn.tcb.snd_nxt estConn.tcb.snd_una +
        ([104, 105, 10] : List Nat).length < HALF) ∧
    Inv (send estConn [104, 105, 10]).1 :=
  ⟨by decide, c7_amended.1 sampleLocal synSeg (by decide),
    ⟨by decide, by decide, by decide⟩,
    c7_amended.2.2.1 estConn [104, 105, 10] (by decide) (by decide) (by decide)⟩

end Tcpst2
